import Mathlib

/-!
# The exemplar corpus (example1.c .. example6.c) over an instrumented C machine

The six C programs are translated statement by statement into functions over an
explicit machine state.  The machine follows the usual block memory model:
every allocation is a fresh block with a live/freed flag and cells that start
unwritten; pointers are NULL or a block with an offset.  Every memory access,
every `free`, every signed arithmetic operation and every `printf` conversion is
checked, and what the check found is appended to the machine's log, so a run of
a program yields the chronological list of what each source line did.

Assumptions of the model (none of them taken from the programs' comments):
* `malloc` succeeds and returns a block that was never handed out before;
* `int` is 32 bits wide, `char` is a signed 8-bit type, every scalar occupies
  one cell (`sizeof` counts cells);
* what a freed block contains is arbitrary (`Machine.junk`), and so is the word a
  never-written cell holds (`Machine.leftover`): a read of an uninitialised `int`
  delivers that word, so arithmetic on it is checked like any other;
* the way a branch on an indeterminate value resolves is arbitrary
  (`Machine.coin`);
* a dereference of NULL either faults (`Machine.nullTraps = true`) or is logged
  and skipped (`false`); every other defect is logged and execution goes on.
-/

namespace CMachine

/-- Modelled from the spec: limits.h is a system header outside the repository;
the corpus is described for a 32-bit int, so INT_MAX is 2^31 - 1. -/
def INT_MAX : Int := 2147483647

/-- Modelled from the spec: limits.h is outside the repository; the least
value of a 32-bit int. -/
def INT_MIN : Int := -INT_MAX - 1

/-- The largest value of `char`, assumed a signed 8-bit type (limits.h is
outside the repository). -/
def CHAR_MAX : Int := 127

/-- The least value of `char`, assumed a signed 8-bit type (limits.h is
outside the repository). -/
def CHAR_MIN : Int := -128

/-- The C types that occur in the six programs. -/
inductive CType where
  | int
  | char
  | float
  | double
  | void
  | node
  | ptr (t : CType)
  deriving DecidableEq, Repr

/-- Number of cells of an object of the given type: scalars take one cell,
`struct Node` (example6.c:7-10) has the two fields `data` and `next`. -/
@[simp]
def sizeof : CType → Nat
  | .node => 2
  | _ => 1

/-- A pointer: NULL, or an offset (in cells) into a block. -/
inductive Ptr where
  | null
  | loc (blk : Nat) (off : Nat)
  deriving DecidableEq, Repr

/-- A C value.  A `double` is carried as a decimal `mant * 10^exp` and never
computed with; `indet` is an indeterminate value. -/
inductive Val where
  | int (n : Int)
  | chr (c : Int)
  | dbl (mant : Int) (exp : Int)
  | ptr (p : Ptr)
  | indet
  deriving DecidableEq, Repr

/-- The null pointer constant. -/
@[simp]
def NULL : Val := .ptr .null

/-- Pointer arithmetic `p + i` (in cells), also used for `p[i]` and `p->field`.
An access through NULL plus an offset is kept as an access through NULL. -/
@[simp]
def Val.plus : Val → Nat → Val
  | .ptr (.loc b o), i => .ptr (.loc b (o + i))
  | v, _ => v

/-- Whether a stored value can be read at the given type. -/
@[simp]
def Val.hasType : Val → CType → Bool
  | .int _, .int => true
  | .chr _, .char => true
  | .dbl _ _, .double => true
  | .ptr _, .ptr _ => true
  | .indet, _ => true
  | _, _ => false

/-- A block of memory. -/
structure Block where
  /-- Obtained from `malloc` (true) or a declared object (false). -/
  heap : Bool
  /-- Number of cells. -/
  size : Nat
  /-- Set by `free`. -/
  freed : Bool
  /-- Contents; `none` is a cell that has never been written. -/
  cells : Nat → Option Val

/-- What a check found when an operation used a pointer. -/
inductive Status where
  | ok
  | null
  | wild
  | freed
  | outOfBounds
  | uninit
  | wrongType
  | notHeap
  deriving DecidableEq, Repr

/-- One entry of the log: the source line and what happened there. -/
inductive Event where
  | alloc (line : Nat) (blk : Nat) (size : Nat)
  | read (line : Nat) (p : Val) (st : Status)
  | write (line : Nat) (p : Val) (st : Status)
  | release (line : Nat) (p : Val) (st : Status)
  | overflow (line : Nat) (exact : Int) (wrapped : Int)
  | narrowed (line : Nat) (given : Int) (stored : Int)
  | format (line : Nat) (conv : Char) (given : CType)
  deriving DecidableEq, Repr

/-- The machine state. -/
structure Machine where
  /-- Whether a dereference of NULL faults. -/
  nullTraps : Bool
  /-- What the cells of block `b` hold once it has been freed. -/
  junk : Nat → Nat → Option Val
  /-- How a branch on an indeterminate value resolves. -/
  coin : Bool
  /-- The word cell `o` of block `b` holds while it has never been written. -/
  leftover : Nat → Nat → Int
  /-- The next block to hand out. -/
  next : Nat
  /-- The blocks allocated so far. -/
  mem : Nat → Option Block
  /-- What has happened so far, oldest first. -/
  log : List Event

/-- The machine at program start: no block, empty log. -/
@[simp]
def Machine.init (nullTraps : Bool) (junk : Nat → Nat → Option Val) (coin : Bool)
    (leftover : Nat → Nat → Int) : Machine :=
  { nullTraps := nullTraps, junk := junk, coin := coin, leftover := leftover, next := 0,
    mem := fun _ => none, log := [] }

/-- How a computation ends: normally, by a fault at a line, or without having
finished when the loop fuel ran out. -/
inductive Outcome (α : Type) where
  | ok (a : α) (m : Machine)
  | trap (line : Nat) (m : Machine)
  | diverge (m : Machine)

/-- The machine a computation ended in. -/
@[simp]
def Outcome.machine {α : Type} : Outcome α → Machine
  | .ok _ m => m
  | .trap _ m => m
  | .diverge m => m

/-- The log of a computation. -/
@[simp]
def Outcome.log {α : Type} (o : Outcome α) : List Event := o.machine.log

/-- The value a computation returned, if it returned. -/
@[simp]
def Outcome.value {α : Type} : Outcome α → Option α
  | .ok a _ => some a
  | _ => none

/-- The line a computation faulted at, if it faulted. -/
@[simp]
def Outcome.faultLine {α : Type} : Outcome α → Option Nat
  | .trap l _ => some l
  | _ => none

/-- A computation over the machine. -/
def Exec (α : Type) : Type := Machine → Outcome α

/-- Sequencing: a fault or fuel exhaustion ends the computation. -/
@[simp]
def Exec.bind {α β : Type} (x : Exec α) (f : α → Exec β) : Exec β := fun m =>
  match x m with
  | .ok a m1 => f a m1
  | .trap l m1 => .trap l m1
  | .diverge m1 => .diverge m1

instance : Monad Exec where
  pure a := fun m => .ok a m
  bind := Exec.bind

/-- Append an entry to the log. -/
@[simp]
def Machine.record (m : Machine) (e : Event) : Machine :=
  { m with log := m.log ++ [e] }

/-- Replace block `b`. -/
@[simp]
def Machine.setBlock (m : Machine) (b : Nat) (blk : Block) : Machine :=
  { m with mem := fun i => if i = b then some blk else m.mem i }

/-- What an access of `width` cells through `p` finds.  A read of one cell also
checks that the cell has been written and holds a value of the type read. -/
@[simp]
def Machine.probe (m : Machine) (p : Val) (width : Nat) (readAs : Option CType) : Status :=
  match p with
  | .ptr .null => .null
  | .ptr (.loc b o) =>
    match m.mem b with
    | none => .wild
    | some blk =>
      if blk.freed then .freed
      else if blk.size < o + width then .outOfBounds
      else match readAs with
        | none => .ok
        | some ty =>
          match blk.cells o with
          | none => .uninit
          | some v => if v.hasType ty then .ok else .wrongType
  | _ => .wild

/-- The content of the cell `p` points to, whatever the state of its block. -/
@[simp]
def Machine.peek (m : Machine) (p : Val) : Val :=
  match p with
  | .ptr (.loc b o) =>
    match m.mem b with
    | some blk => (blk.cells o).getD .indet
    | none => .indet
  | _ => .indet

/-- Write a list of values to consecutive cells starting at `p`. -/
@[simp]
def Machine.poke (m : Machine) (p : Val) (vs : List Val) : Machine :=
  match p with
  | .ptr (.loc b o) =>
    match m.mem b with
    | some blk =>
      m.setBlock b { blk with cells := fun i =>
        if o ≤ i ∧ i < o + vs.length then vs.get? (i - o) else blk.cells i }
    | none => m
  | _ => m

/-- Hand out the next block. -/
@[simp]
def Machine.fresh (m : Machine) (blk : Block) : Machine :=
  { m with next := m.next + 1, mem := fun i => if i = m.next then some blk else m.mem i }

/-- The call `malloc(n)`: a fresh live heap block of `n` unwritten cells. -/
@[simp]
def malloc (line : Nat) (n : Nat) : Exec Val := fun m =>
  .ok (.ptr (.loc m.next 0))
    ((m.fresh { heap := true, size := n, freed := false, cells := fun _ => none }).record
      (.alloc line m.next n))

/-- A declaration without initializer (`int x;`, `int arr[10];`), or the storage
of a local whose address is taken: a fresh block of `n` unwritten cells that
is not a heap block.  The declaration itself does nothing observable. -/
@[simp]
def declare (n : Nat) : Exec Val := fun m =>
  .ok (.ptr (.loc m.next 0))
    (m.fresh { heap := false, size := n, freed := false, cells := fun _ => none })

/-- A string literal: a static block holding the characters and the final NUL. -/
@[simp]
def strlit (s : String) : Exec Val := fun m =>
  let cs := s.data.map (fun c => Val.chr c.toNat) ++ [Val.chr 0]
  .ok (.ptr (.loc m.next 0))
    (m.fresh { heap := false, size := cs.length, freed := false, cells := fun i => cs.get? i })

/-- Reduce an exact integer result into the range of a 32-bit int. -/
def wrap32 (n : Int) : Int := (n - INT_MIN) % 4294967296 + INT_MIN

/-- Reduce an exact integer into the range of a signed 8-bit char. -/
def wrap8 (n : Int) : Int := (n - CHAR_MIN) % 256 + CHAR_MIN

/-- What a read at type `ty` of the never-written cell `p` delivers: the
leftover word of the cell as an `int` or a `char`; at any other type the value
is indeterminate. -/
@[simp]
def Machine.stale (m : Machine) (ty : CType) (p : Val) : Val :=
  match p, ty with
  | .ptr (.loc b o), .int => .int (wrap32 (m.leftover b o))
  | .ptr (.loc b o), .char => .chr (wrap8 (m.leftover b o))
  | _, _ => .indet

/-- The read `*p` at type `ty`.  The access is logged with what it found; a read
of a freed block yields whatever the block now holds, a read of a never-written
cell the leftover word of the cell. -/
@[simp]
def load (line : Nat) (ty : CType) (p : Val) : Exec Val := fun m =>
  let st := m.probe p 1 (some ty)
  let m1 := m.record (.read line p st)
  match st with
  | .null => if m.nullTraps then .trap line m1 else .ok .indet m1
  | .ok => .ok (m.peek p) m1
  | .freed => .ok (m.peek p) m1
  | .uninit => .ok (m.stale ty p) m1
  | _ => .ok .indet m1

/-- The write `*p = v`.  The access is logged with what it found; a write to a
freed block lands in the freed block. -/
@[simp]
def store (line : Nat) (p : Val) (v : Val) : Exec Unit := fun m =>
  let st := m.probe p 1 none
  let m1 := m.record (.write line p st)
  match st with
  | .null => if m.nullTraps then .trap line m1 else .ok () m1
  | .ok => .ok () (m1.poke p [v])
  | .freed => .ok () (m1.poke p [v])
  | _ => .ok () m1

/-- The call `free(p)`.  `free(NULL)` does nothing; freeing a live heap block
through its base pointer marks it freed and leaves `junk` in its cells; anything
else is logged and changes nothing. -/
@[simp]
def free (line : Nat) (p : Val) : Exec Unit := fun m =>
  match p with
  | .ptr .null => .ok () (m.record (.release line p .null))
  | .ptr (.loc b o) =>
    match m.mem b with
    | none => .ok () (m.record (.release line p .wild))
    | some blk =>
      if blk.heap = false then .ok () (m.record (.release line p .notHeap))
      else if blk.freed then .ok () (m.record (.release line p .freed))
      else if o ≠ 0 then .ok () (m.record (.release line p .wild))
      else .ok () ((m.setBlock b { blk with freed := true, cells := m.junk b }).record
        (.release line p .ok))
  | _ => .ok () (m.record (.release line p .wild))

/-- The call `strcpy(dst, "literal")`: one write of the characters and the
final NUL (the source is a string literal at every call in the programs). -/
@[simp]
def strcpy (line : Nat) (dst : Val) (src : String) : Exec Unit := fun m =>
  let cs := src.data.map (fun c => Val.chr c.toNat) ++ [Val.chr 0]
  let st := m.probe dst cs.length none
  let m1 := m.record (.write line dst st)
  match st with
  | .null => if m.nullTraps then .trap line m1 else .ok () m1
  | .ok => .ok () (m1.poke dst cs)
  | .freed => .ok () (m1.poke dst cs)
  | _ => .ok () m1

/-- Deliver the result of a signed `int` operation: when the exact result is not
representable the overflow is logged and the wrapped value delivered. -/
@[simp]
def checked (line : Nat) (exact : Int) : Exec Val := fun m =>
  if INT_MIN ≤ exact ∧ exact ≤ INT_MAX then .ok (.int exact) m
  else .ok (.int (wrap32 exact)) (m.record (.overflow line exact (wrap32 exact)))

/-- The value of an operand of integer type after the integer promotions; an
operand that holds no integer (a pointer, a double, the indeterminate result of a
skipped or out-of-bounds read) has none. -/
@[simp]
def Val.asInt : Val → Option Int
  | .int n => some n
  | .chr c => some c
  | _ => none

/-- The expression `x + y` at type int: the exact sum is delivered through the
overflow check.  An operand read from an uninitialised `int` is the leftover
word of its cell and is added and checked like any other; only an operand that
holds no integer at all (which no program of the corpus adds) gives an
indeterminate result. -/
@[simp]
def addInt (line : Nat) (x y : Val) : Exec Val :=
  match x.asInt, y.asInt with
  | some a, some b => checked line (a + b)
  | _, _ => pure .indet

/-- The expression `x * y` at type int, checked like `x + y`. -/
@[simp]
def mulInt (line : Nat) (x y : Val) : Exec Val :=
  match x.asInt, y.asInt with
  | some a, some b => checked line (a * b)
  | _, _ => pure .indet

/-- The implicit conversion of an int to `char`; a value that does not fit is
logged and stored reduced. -/
@[simp]
def toChar (line : Nat) (v : Val) : Exec Val := fun m =>
  match v with
  | .int n =>
    if CHAR_MIN ≤ n ∧ n ≤ CHAR_MAX then .ok (.chr n) m
    else .ok (.chr (wrap8 n)) (m.record (.narrowed line n (wrap8 n)))
  | .chr c => .ok (.chr c) m
  | _ => .ok .indet m

/-- The conversion specifiers of a format string, in order (`%%` is a literal). -/
@[simp]
def conversions : List Char → List Char
  | [] => []
  | [_] => []
  | c :: d :: rest =>
    if c = '%' then
      if d = '%' then conversions rest else d :: conversions rest
    else conversions (d :: rest)

/-- The argument type a conversion specifier expects. -/
@[simp]
def expects (c : Char) : Option CType :=
  if c = 'd' then some .int
  else if c = 's' then some (.ptr .char)
  else if c = 'f' then some .double
  else if c = 'p' then some (.ptr .void)
  else none

/-- The default argument promotions of a variadic call. -/
@[simp]
def promote : CType → CType
  | .char => .int
  | .float => .double
  | t => t

/-- One conversion of a `printf` call against its argument: a mismatch between
the specifier and the promoted argument type is logged; `%s` reads the string. -/
@[simp]
def printfArg (line : Nat) (c : Char) (arg : CType × Val) : Exec Unit := fun m =>
  match expects c with
  | none => .ok () m
  | some want =>
    if promote arg.1 = want then
      if c = 's' then (load line .char arg.2 >>= fun _ => pure ()) m else .ok () m
    else .ok () (m.record (.format line c arg.1))

/-- The conversions of a `printf` call against its arguments, left to right. -/
@[simp]
def printfArgs (line : Nat) : List Char → List (CType × Val) → Exec Unit
  | c :: cs, a :: as => printfArg line c a >>= fun _ => printfArgs line cs as
  | _, _ => pure ()

/-- The call `printf(fmt, args...)`; each argument comes with its static type. -/
@[simp]
def printf (line : Nat) (fmt : String) (args : List (CType × Val)) : Exec Unit :=
  printfArgs line (conversions fmt.data) args

/-- The truth value of a controlling expression; an indeterminate value
resolves as the machine's `coin`. -/
@[simp]
def truth (v : Val) : Exec Bool := fun m =>
  match v with
  | .int n => .ok (decide (n ≠ 0)) m
  | .chr c => .ok (decide (c ≠ 0)) m
  | .dbl x _ => .ok (decide (x ≠ 0)) m
  | .ptr p => .ok (decide (p ≠ .null)) m
  | .indet => .ok m.coin m

/-- The loop `for (int i = start; i < start + trips; i++) body`, with the
variables the body assigns threaded as `s`. -/
@[simp]
def forLoop {σ : Type} (body : Nat → σ → Exec σ) : Nat → Nat → σ → Exec σ
  | 0, _, s => pure s
  | trips + 1, i, s => body i s >>= forLoop body trips (i + 1)

/-- Run a program from the start state. -/
@[simp]
def run {α : Type} (prog : Exec α) (nullTraps : Bool) (junk : Nat → Nat → Option Val)
    (coin : Bool) (leftover : Nat → Nat → Int) : Outcome α :=
  prog (Machine.init nullTraps junk coin leftover)

end CMachine

/-! ## example1.c -/

namespace example1
open CMachine

/-- The program of example1.c:4-34. -/
def main : Exec Val := do
  -- Example 1: Basic integer overflow (lines 5-13)
  let a := Val.int INT_MAX
  let b := Val.int 1
  let result ← addInt 8 a b
  printf 10 "INT_MAX: %d\n" [(.int, .int INT_MAX)]
  printf 11 "a = %d\n" [(.int, a)]
  printf 12 "b = %d\n" [(.int, b)]
  printf 13 "a + b = %d\n" [(.int, result)]
  -- Example 2: Multiplication overflow (lines 15-23)
  let x := Val.int 1000000
  let y := Val.int 1000000
  let product ← mulInt 18 x y
  printf 20 "\nMultiplication overflow:\n" []
  printf 21 "x = %d\n" [(.int, x)]
  printf 22 "y = %d\n" [(.int, y)]
  printf 23 "x * y = %d\n" [(.int, product)]
  -- Example 3: Array index overflow (lines 25-31)
  let arr ← declare 10
  let index : Nat := 15
  printf 29 "\nArray access (index %d):\n" [(.int, .int index)]
  store 30 (arr.plus index) (.int 42)
  let elem ← load 31 .int (arr.plus index)
  printf 31 "arr[%d] = %d\n" [(.int, .int index), (.int, elem)]
  return .int 0

end example1

/-! ## example2.c -/

namespace example2
open CMachine

/-- The program of example2.c:4-33.  The local `integer` has its address taken
at line 18, so it lives in a block. -/
def main : Exec Val := do
  -- Example 1: Wrong format specifier (lines 5-7)
  let number := Val.int 42
  printf 7 "Number as string: %s\n" [(.int, number)]
  -- Example 2: Implicit narrowing conversion (lines 9-14)
  let large_number := Val.int 300
  let small_char ← toChar 11 large_number
  printf 12 "\nNarrowing conversion:\n" []
  printf 13 "Original int: %d\n" [(.int, large_number)]
  printf 14 "After conversion to char: %d\n" [(.char, small_char)]
  -- Example 3: Pointer type confusion (lines 16-21)
  let integer ← declare 1
  store 17 integer (.int 12345)
  let float_ptr := integer
  printf 19 "\nPointer type confusion:\n" []
  let shown ← load 20 .int integer
  printf 20 "Integer value: %d\n" [(.int, shown)]
  let punned ← load 21 .float float_ptr
  printf 21 "Same bytes interpreted as float: %f\n" [(.float, punned)]
  -- Example 4: Format string mismatch with multiple arguments (lines 23-26)
  let pi := Val.dbl 314159 (-5)
  printf 25 "\nFormat string mismatch:\n" []
  printf 26 "Pi value: %d\n" [(.double, pi)]
  -- Example 5: String/pointer confusion (lines 28-30)
  let message ← strlit "Hello"
  printf 30 "\nString as number: %d\n" [(.ptr .char, message)]
  return .int 0

end example2

/-! ## example3.c -/

namespace example3
open CMachine

/-- The function of example3.c:4-6. -/
def process_data (data : Val) : Exec Unit := do
  let shown ← load 5 .int data
  printf 5 "Processing value: %d\n" [(.int, shown)]

/-- The program of example3.c:8-30; the field `x` of `struct Point` is at
offset 0. -/
def main : Exec Val := do
  -- Example 1: Basic null pointer dereference (lines 9-12)
  let ptr := NULL
  printf 11 "Attempting to dereference NULL pointer...\n" []
  let shown ← load 12 .int ptr
  printf 12 "Value: %d\n" [(.int, shown)]
  -- Example 2: Function call with NULL (lines 14-15)
  process_data NULL
  -- Example 3: Array access through NULL (lines 17-19)
  let array := NULL
  store 19 (array.plus 5) (.int 42)
  -- Example 4: Struct member access through NULL (lines 21-27)
  let point := NULL
  store 27 (point.plus 0) (.int 10)
  return .int 0

end example3

/-! ## example4.c -/

namespace example4
open CMachine

/-- The program of example4.c:5-34. -/
def main : Exec Val := do
  -- Example 1: Basic use after free (lines 6-15)
  let ptr ← malloc 7 (sizeof .int)
  store 8 ptr (.int 42)
  let before ← load 9 .int ptr
  printf 9 "Value before free: %d\n" [(.int, before)]
  free 11 ptr
  printf 13 "Attempting to use after free...\n" []
  let after ← load 14 .int ptr
  printf 14 "Value after free: %d\n" [(.int, after)]
  store 15 ptr (.int 100)
  -- Example 2: Double free (lines 17-21)
  let another_ptr ← malloc 18 (sizeof .int)
  store 19 another_ptr (.int 123)
  free 20 another_ptr
  free 21 another_ptr
  -- Example 3: Use after free with strings (lines 23-31)
  let buffer ← malloc 24 20
  strcpy 25 buffer "Hello, World!"
  printf 26 "\nString before free: %s\n" [(.ptr .char, buffer)]
  free 28 buffer
  printf 30 "String after free: %s\n" [(.ptr .char, buffer)]
  strcpy 31 buffer "Oops!"
  return .int 0

end example4

/-! ## example5.c -/

namespace example5
open CMachine

/-- The function of example5.c:4-7. -/
def get_random_value : Exec Val := do
  let value ← declare 1
  load 6 .int value

/-- The program of example5.c:9-47. -/
def main : Exec Val := do
  -- Example 1: Uninitialized local variable (lines 10-12)
  let x ← declare 1
  let xv ← load 12 .int x
  printf 12 "Uninitialized int x: %d\n" [(.int, xv)]
  -- Example 2: Uninitialized pointer (lines 14-16)
  let ptr ← declare 1
  let ptrv ← load 16 (.ptr .int) ptr
  printf 16 "Uninitialized pointer value: %p\n" [(.ptr .void, ptrv)]
  -- Example 3: Uninitialized array (lines 20-25)
  let array ← declare 10
  printf 22 "\nUninitialized array values:\n" []
  forLoop (fun i _ => do
    let elem ← load 24 .int (array.plus i)
    printf 24 "array[%d] = %d\n" [(.int, .int i), (.int, elem)]) 10 0 ()
  -- Example 4: Using uninitialized value in calculation (lines 27-32)
  let a ← declare 1
  let b := Val.int 10
  let av ← load 30 .int a
  let result ← addInt 30 av b
  printf 31 "\nCalculation with uninitialized value:\n" []
  printf 32 "a (uninitialized) + b (10) = %d\n" [(.int, result)]
  -- Example 5: Function returning uninitialized value (lines 34-36)
  let random ← get_random_value
  printf 36 "\nValue from function: %d\n" [(.int, random)]
  -- Example 6: Conditional based on uninitialized value (lines 38-44)
  let flag ← declare 1
  let flagv ← load 40 .int flag
  if (← truth flagv) then
    printf 41 "\nFlag was true (non-zero)\n" []
  else
    printf 43 "\nFlag was false (zero)\n" []
  return .int 0

end example5

/-! ## example6.c -/

namespace example6
open CMachine

/-- Offset of the field `data` of `struct Node` (example6.c:8). -/
def Node.data : Nat := 0

/-- Offset of the field `next` of `struct Node` (example6.c:9). -/
def Node.next : Nat := 1

/-- The function of example6.c:13-16; `node` is the address of a pointer. -/
def cleanup_node (node : Val) : Exec Unit := do
  let target ← load 14 (.ptr .node) node
  free 14 target

/-- The function of example6.c:19-24. -/
def get_freed_node : Exec Val := do
  let temp ← malloc 20 (sizeof .node)
  store 21 (temp.plus Node.data) (.int 999)
  free 22 temp
  return temp

/-- Example 1 of main (example6.c:27-36). -/
def aliasing : Exec Unit := do
  printf 28 "=== Example 1: Aliasing ===\n" []
  let original ← malloc 29 (sizeof .int)
  store 30 original (.int 42)
  let alias_ := original
  free 33 original
  let shown ← load 35 .int alias_
  printf 35 "Using alias after original was freed: %d\n" [(.int, shown)]
  store 36 alias_ (.int 100)

/-- Example 2 of main (example6.c:38-46).  The local `node` has its address
taken at line 44, so it lives in a block. -/
def functionParameter : Exec Unit := do
  printf 39 "\n=== Example 2: Function Parameter ===\n" []
  let node ← declare 1
  store 40 node (← malloc 40 (sizeof .node))
  store 41 ((← load 41 (.ptr .node) node).plus Node.data) (.int 123)
  let node_backup ← load 42 (.ptr .node) node
  cleanup_node node
  let shown ← load 46 .int (node_backup.plus Node.data)
  printf 46 "Accessing freed node: %d\n" [(.int, shown)]

/-- Example 3 of main (example6.c:48-51). -/
def functionReturn : Exec Unit := do
  printf 49 "\n=== Example 3: Function Return ===\n" []
  let freed_node ← get_freed_node
  let shown ← load 51 .int (freed_node.plus Node.data)
  printf 51 "Accessing returned freed memory: %d\n" [(.int, shown)]

/-- The loop of example6.c:59-64, started with `list = NULL` (line 55); returns
the final `list`. -/
def createList : Exec Val :=
  forLoop (fun i list => do
    let new_node ← malloc 60 (sizeof .node)
    store 61 (new_node.plus Node.data) (.int i)
    store 62 (new_node.plus Node.next) list
    return new_node) 3 0 NULL

/-- The loop of example6.c:68-73: `fuel` bounds the number of times the loop
condition is evaluated; returns the number of iterations run. -/
def freeList : Nat → Val → Nat → Exec Nat
  | 0, _, _ => fun m => .diverge m
  | fuel + 1, current, done =>
    if current ≠ NULL then do
      let next ← load 69 (.ptr .node) (current.plus Node.next)
      free 70 current
      let shown ← load 71 .int (current.plus Node.data)
      printf 71 "Freed node had data: %d\n" [(.int, shown)]
      freeList fuel next (done + 1)
    else
      pure done

/-- Example 4 of main (example6.c:53-73); returns the number of iterations of
the second loop. -/
def loopScenario (fuel : Nat) : Exec Nat := do
  printf 54 "\n=== Example 4: Loop Scenario ===\n" []
  let list ← createList
  let current := list
  freeList fuel current 0

/-- Example 5 of main (example6.c:75-86). -/
def conditional : Exec Unit := do
  printf 76 "\n=== Example 5: Conditional ===\n" []
  let ptr ← malloc 77 (sizeof .int)
  store 78 ptr (.int 777)
  let should_free := Val.int 1
  if (← truth should_free) then
    free 82 ptr
  let shown ← load 86 .int ptr
  printf 86 "Value: %d\n" [(.int, shown)]

/-- The program of example6.c:26-89. -/
def main (fuel : Nat) : Exec Val := do
  aliasing
  functionParameter
  functionReturn
  let _ ← loopScenario fuel
  conditional
  return .int 0

end example6


/-! ## Classification of what the log shows -/

namespace CMachine

/-- The kinds of defective operation the machine detects. -/
inductive Defect where
  | signedOverflow
  | formatMismatch
  | lossyConversion
  | typePun
  | nullDeref
  | useAfterFree
  | doubleFree
  | uninitRead
  | outOfBounds
  | wildPointer
  | invalidFree
  deriving DecidableEq, Repr

/-- The defect a memory access with the given finding is. -/
def Status.accessDefect : Status → Option Defect
  | .ok => none
  | .null => some .nullDeref
  | .wild => some .wildPointer
  | .freed => some .useAfterFree
  | .outOfBounds => some .outOfBounds
  | .uninit => some .uninitRead
  | .wrongType => some .typePun
  | .notHeap => none

/-- The defect a call of `free` with the given finding is (`free(NULL)` is
allowed). -/
def Status.freeDefect : Status → Option Defect
  | .ok => none
  | .null => none
  | .freed => some .doubleFree
  | _ => some .invalidFree

/-- The defect a log entry shows, if any. -/
def Event.defect : Event → Option Defect
  | .alloc _ _ _ => none
  | .read _ _ st => st.accessDefect
  | .write _ _ st => st.accessDefect
  | .release _ _ st => st.freeDefect
  | .overflow _ _ _ => some .signedOverflow
  | .narrowed _ _ _ => some .lossyConversion
  | .format _ _ _ => some .formatMismatch

/-- The defective operations of a run, in order. -/
def defects (log : List Event) : List Defect := log.filterMap Event.defect

/-- The five classes of the corpus description: signed-integer overflow,
format-string/type mismatch, null-pointer dereference, use-after-free/double-free,
read of uninitialized memory. -/
inductive DefectClass where
  | signedOverflow
  | typeMismatch
  | nullDeref
  | useAfterFree
  | uninitRead
  deriving DecidableEq, Repr

/-- The class of the corpus description a defect belongs to; a wrong format
specifier, a value-changing narrowing conversion and a read through a pointer of
the wrong type all count as format-string/type mismatch; an out-of-bounds access,
an access through a wild pointer and an invalid `free` are in none of the five. -/
def Defect.cls : Defect → Option DefectClass
  | .signedOverflow => some .signedOverflow
  | .formatMismatch => some .typeMismatch
  | .lossyConversion => some .typeMismatch
  | .typePun => some .typeMismatch
  | .nullDeref => some .nullDeref
  | .useAfterFree => some .useAfterFree
  | .doubleFree => some .useAfterFree
  | .uninitRead => some .uninitRead
  | .outOfBounds => none
  | .wildPointer => none
  | .invalidFree => none

/-- A run has defective operations and every one of them is of class `c`. -/
def oneClass (c : DefectClass) (log : List Event) : Prop :=
  defects log ≠ [] ∧ ∀ d ∈ defects log, d.cls = some c

/-- The overflow entries of a log. -/
def overflows (log : List Event) : List Event :=
  log.filter fun e => match e with
    | .overflow _ _ _ => true
    | _ => false

/-- Walk a list of `struct Node` from `p` with checked reads and collect the
`data` fields until NULL; `none` when a read is not clean or the fuel runs out. -/
def listData (m : Machine) : Nat → Val → Option (List Val)
  | 0, _ => none
  | fuel + 1, p =>
    if p = NULL then some []
    else if m.probe (p.plus example6.Node.data) 1 (some .int) = .ok
        ∧ m.probe (p.plus example6.Node.next) 1 (some (.ptr .node)) = .ok then
      (listData m fuel (m.peek (p.plus example6.Node.next))).map
        fun rest => m.peek (p.plus example6.Node.data) :: rest
    else none

end CMachine

/-! ## The Matcher/Scorer of the benchmark harness

The repository holds the six exemplar programs only; the harness exists in the
specification alone.  The definitions below follow sections 3 and 4.4 of the
specification word by word. -/

namespace Harness

/-- Modelled from the spec: the closed set of defect categories of section 3
(no harness code is in the repository). -/
inductive DefectCategory where
  | IntegerOverflow
  | TypeConfusion
  | NullDereference
  | UseAfterFree
  | DoubleFree
  | UninitializedRead
  deriving DecidableEq, Repr

/-- Modelled from the spec: the category of a finding, a defect category or
`Unknown` for an unmapped tool label (section 3, NormalizedFinding). -/
inductive Category where
  | known (c : DefectCategory)
  | Unknown
  deriving DecidableEq, Repr

/-- Modelled from the spec: one expected defect occurrence (section 3):
category, primary trigger line, equivalent alias lines, weight. -/
structure GroundTruthInstance where
  category : DefectCategory
  primary : Nat
  aliases : List Nat
  weight : ℚ

/-- Modelled from the spec: one detector-reported issue (section 3): category,
reported lines, detector-assigned confidence. -/
structure NormalizedFinding where
  category : Category
  locations : List Nat
  confidence : ℚ

/-- Modelled from the spec: the outcome classes of section 3 (TrueNegative is
relevant to negative controls only and carries no instance or finding). -/
inductive MatchOutcome where
  | TruePositive (g : GroundTruthInstance) (f : NormalizedFinding)
  | FalseNegative (g : GroundTruthInstance)
  | FalsePositive (f : NormalizedFinding)

/-- Modelled from the spec: two lines are within the line-distance tolerance
(4.4 step 2; tolerance 0 is an exact line match). -/
def near (tolerance a b : Nat) : Bool :=
  decide (a ≤ b + tolerance ∧ b ≤ a + tolerance)

/-- Modelled from the spec: a finding qualifies for an instance when it has the
instance's category and one of its reported lines is within tolerance of the
primary line or of an alias line (4.4 steps 1 and 2).  An `Unknown` finding has
no instance's category, so it never qualifies. -/
def qualifies (tolerance : Nat) (g : GroundTruthInstance) (f : NormalizedFinding) : Bool :=
  decide (f.category = .known g.category)
    && f.locations.any fun l => (g.primary :: g.aliases).any fun t => near tolerance l t

/-- Modelled from the spec: the finding reports exactly the primary line
(4.4 step 4). -/
def hitsPrimary (g : GroundTruthInstance) (f : NormalizedFinding) : Bool :=
  f.locations.contains g.primary

/-- Modelled from the spec: `f` is strictly preferred to `e` for `g`: an exact
primary match beats an alias match, then the higher confidence wins (4.4 step 4). -/
def preferred (g : GroundTruthInstance) (f e : NormalizedFinding) : Bool :=
  (hitsPrimary g f && !hitsPrimary g e)
    || (hitsPrimary g f == hitsPrimary g e && decide (e.confidence < f.confidence))

/-- Modelled from the spec: the finding of the pool consumed by an instance,
with its position: the most preferred qualifying finding, the first encountered
among equals (4.4 steps 2 and 4). -/
def choose (tolerance : Nat) (g : GroundTruthInstance) :
    List NormalizedFinding → Option (Nat × NormalizedFinding)
  | [] => none
  | f :: rest =>
    match choose tolerance g rest with
    | none => if qualifies tolerance g f then some (0, f) else none
    | some (i, e) =>
      if qualifies tolerance g f && !preferred g e f then some (0, f) else some (i + 1, e)

/-- Modelled from the spec: per-exemplar matching (4.4 steps 2, 3 and 5): every
instance in turn consumes its chosen finding, which leaves the pool; a matched
instance is a TruePositive, an unmatched one a FalseNegative, and every finding
left in the pool at the end (`Unknown` ones included) is a FalsePositive. -/
def matchExemplar (tolerance : Nat) :
    List GroundTruthInstance → List NormalizedFinding → List MatchOutcome
  | [], pool => pool.map .FalsePositive
  | g :: gs, pool =>
    match choose tolerance g pool with
    | some (i, f) => .TruePositive g f :: matchExemplar tolerance gs (pool.eraseIdx i)
    | none => .FalseNegative g :: matchExemplar tolerance gs pool

/-- Modelled from the spec: a run pairs every exemplar's instances with its own
slice of the findings; the outcome sets are concatenated (4.4, section 5). -/
def matchRun (tolerance : Nat)
    (slices : List (List GroundTruthInstance × List NormalizedFinding)) : List MatchOutcome :=
  slices.flatMap fun s => matchExemplar tolerance s.1 s.2

/-- Number of TruePositive outcomes. -/
def TP (os : List MatchOutcome) : Nat :=
  os.countP fun o => match o with
    | .TruePositive _ _ => true
    | _ => false

/-- Number of FalseNegative outcomes. -/
def FN (os : List MatchOutcome) : Nat :=
  os.countP fun o => match o with
    | .FalseNegative _ => true
    | _ => false

/-- Number of FalsePositive outcomes. -/
def FP (os : List MatchOutcome) : Nat :=
  os.countP fun o => match o with
    | .FalsePositive _ => true
    | _ => false

/-- Number of FalsePositive outcomes whose finding has category `Unknown`. -/
def FPunknown (os : List MatchOutcome) : Nat :=
  os.countP fun o => match o with
    | .FalsePositive f => decide (f.category = .Unknown)
    | _ => false

/-- Number of FalsePositive outcomes whose finding has a defect category. -/
def FPknown (os : List MatchOutcome) : Nat :=
  os.countP fun o => match o with
    | .FalsePositive f => !decide (f.category = .Unknown)
    | _ => false

/-- Whether an outcome is consistent with the matching rule: a TruePositive
pairs an instance with a finding that qualifies for it. -/
def sound (tolerance : Nat) : MatchOutcome → Bool
  | .TruePositive g f => qualifies tolerance g f
  | _ => true

/-- The instances the outcomes account for, in order. -/
def instancesOf : List MatchOutcome → List GroundTruthInstance
  | [] => []
  | .TruePositive g _ :: os => g :: instancesOf os
  | .FalseNegative g :: os => g :: instancesOf os
  | .FalsePositive _ :: os => instancesOf os

/-- The findings the outcomes account for, in order. -/
def findingsOf : List MatchOutcome → List NormalizedFinding
  | [] => []
  | .TruePositive _ f :: os => f :: findingsOf os
  | .FalseNegative _ :: os => findingsOf os
  | .FalsePositive f :: os => f :: findingsOf os

/-- Total number of ground-truth instances of a run. -/
def totalInstances (slices : List (List GroundTruthInstance × List NormalizedFinding)) : Nat :=
  (slices.map fun s => s.1.length).sum

/-- Total number of findings handed to the matcher in a run. -/
def totalFindings (slices : List (List GroundTruthInstance × List NormalizedFinding)) : Nat :=
  (slices.map fun s => s.2.length).sum

/-- Number of `Unknown`-category findings handed to the matcher in a run. -/
def unknownFindings (slices : List (List GroundTruthInstance × List NormalizedFinding)) : Nat :=
  (slices.map fun s => s.2.countP fun f => decide (f.category = .Unknown)).sum

end Harness

namespace CMachine

/-- A state in which block 1 is a live heap block of two cells and the
one-cell variable in block 0 holds the pointer to it. -/
def heldPointerState : Machine :=
  { nullTraps := false
    junk := fun _ _ => none
    coin := false
    leftover := fun _ _ => 0
    next := 2
    mem := fun i =>
      if i = 0 then
        some { heap := false, size := 1, freed := false, cells := fun _ => some (.ptr (.loc 1 0)) }
      else if i = 1 then
        some { heap := true, size := 2, freed := false, cells := fun _ => none }
      else none
    log := [] }

/-- A state in which block 1 is a live heap node whose own `next` field holds
the pointer to the node (`n->next = n`). -/
def selfHeldState : Machine :=
  { nullTraps := false
    junk := fun _ _ => none
    coin := false
    leftover := fun _ _ => 0
    next := 2
    mem := fun i =>
      if i = 1 then
        some { heap := true, size := 2, freed := false,
               cells := fun o => if o = 1 then some (.ptr (.loc 1 0)) else some (.int 7) }
      else none
    log := [] }

/-- A state in which block 1 is a live heap node and the one-cell variable in
block 0 holds the pointer to the second cell of the node. -/
def interiorHeldState : Machine :=
  { nullTraps := false
    junk := fun _ _ => none
    coin := false
    leftover := fun _ _ => 0
    next := 2
    mem := fun i =>
      if i = 0 then
        some { heap := false, size := 1, freed := false, cells := fun _ => some (.ptr (.loc 1 1)) }
      else if i = 1 then
        some { heap := true, size := 2, freed := false, cells := fun _ => some (.int 7) }
      else none
    log := [] }

/-- A state in which block 1 is a live declared object (`int x;`), not a heap
block, and the one-cell variable in block 0 holds the pointer to it. -/
def declaredTargetState : Machine :=
  { nullTraps := false
    junk := fun _ _ => none
    coin := false
    leftover := fun _ _ => 0
    next := 2
    mem := fun i =>
      if i = 0 then
        some { heap := false, size := 1, freed := false, cells := fun _ => some (.ptr (.loc 1 0)) }
      else if i = 1 then
        some { heap := false, size := 1, freed := false, cells := fun _ => some (.int 7) }
      else none
    log := [] }

end CMachine

namespace Harness

/-- The run of one exemplar with one UseAfterFree instance at line 10 and one
finding of category `Unknown` at line 10. -/
def unknownRun : List (List GroundTruthInstance × List NormalizedFinding) :=
  [([⟨.UseAfterFree, 10, [], 1⟩], [⟨.Unknown, [10], 1⟩])]

end Harness

/-! ## Symbolic execution lemmas -/

namespace CMachine

@[simp]
theorem bind_apply {α β : Type} (x : Exec α) (f : α → Exec β) (m : Machine) :
    (x >>= f) m = Exec.bind x f m := rfl

@[simp]
theorem pure_apply {α : Type} (a : α) (m : Machine) :
    (pure a : Exec α) m = .ok a m := rfl

@[simp]
theorem ne_add_two (n : Nat) : (n = n + 1 + 1) = False := by
  simp only [eq_iff_iff, iff_false]; omega

@[simp]
theorem add_two_ne (n : Nat) : (n + 1 + 1 = n) = False := by
  simp only [eq_iff_iff, iff_false]; omega

/-- The log of a run of example1.c. -/
theorem example1_log (t : Bool) (j : Nat → Nat → Option Val) (c : Bool)
    (lo : Nat → Nat → Int) :
    (run example1.main t j c lo).log =
      [.overflow 8 2147483648 (-2147483648),
       .overflow 18 1000000000000 (-727379968),
       .write 30 (.ptr (.loc 0 15)) .outOfBounds,
       .read 31 (.ptr (.loc 0 15)) .outOfBounds] := by
  simp [example1.main, INT_MAX, INT_MIN, wrap32]

/-- The log of a run of example2.c. -/
theorem example2_log (t : Bool) (j : Nat → Nat → Option Val) (c : Bool)
    (lo : Nat → Nat → Int) :
    (run example2.main t j c lo).log =
      [.format 7 's' .int,
       .narrowed 11 300 44,
       .write 17 (.ptr (.loc 0 0)) .ok,
       .read 20 (.ptr (.loc 0 0)) .ok,
       .read 21 (.ptr (.loc 0 0)) .wrongType,
       .format 26 'd' .double,
       .format 30 'd' (.ptr .char)] := by
  simp [example2.main, CHAR_MAX, CHAR_MIN, wrap8]

/-- The log of a run of example3.c when a dereference of NULL is logged and
skipped. -/
theorem example3_log (j : Nat → Nat → Option Val) (c : Bool)
    (lo : Nat → Nat → Int) :
    (run example3.main false j c lo).log =
      [.read 12 NULL .null, .read 5 NULL .null, .write 19 NULL .null, .write 27 NULL .null] := by
  simp [example3.main, example3.process_data]

/-- The log of a run of example3.c when a dereference of NULL faults. -/
theorem example3_trap_log (j : Nat → Nat → Option Val) (c : Bool)
    (lo : Nat → Nat → Int) :
    (run example3.main true j c lo).log = [.read 12 NULL .null] := by
  simp [example3.main, example3.process_data]

/-- The log of a run of example4.c. -/
theorem example4_log (t : Bool) (j : Nat → Nat → Option Val) (c : Bool)
    (lo : Nat → Nat → Int) :
    (run example4.main t j c lo).log =
      [.alloc 7 0 1,
       .write 8 (.ptr (.loc 0 0)) .ok,
       .read 9 (.ptr (.loc 0 0)) .ok,
       .release 11 (.ptr (.loc 0 0)) .ok,
       .read 14 (.ptr (.loc 0 0)) .freed,
       .write 15 (.ptr (.loc 0 0)) .freed,
       .alloc 18 1 1,
       .write 19 (.ptr (.loc 1 0)) .ok,
       .release 20 (.ptr (.loc 1 0)) .ok,
       .release 21 (.ptr (.loc 1 0)) .freed,
       .alloc 24 2 20,
       .write 25 (.ptr (.loc 2 0)) .ok,
       .read 26 (.ptr (.loc 2 0)) .ok,
       .release 28 (.ptr (.loc 2 0)) .ok,
       .read 30 (.ptr (.loc 2 0)) .freed,
       .write 31 (.ptr (.loc 2 0)) .freed] := by
  simp [example4.main]

/-- The reduced word is a value of a 32-bit int. -/
theorem wrap32_range (n : Int) : INT_MIN ≤ wrap32 n ∧ wrap32 n ≤ INT_MAX := by
  unfold wrap32 INT_MIN INT_MAX
  omega

/-- The log of a run of example5.c: fifteen reads of never-written cells and,
when the word read for `a` at line 30 is above INT_MAX - 10, the overflow of
`a + b`. -/
theorem example5_log (t : Bool) (j : Nat → Nat → Option Val) (c : Bool)
    (lo : Nat → Nat → Int) :
    (run example5.main t j c lo).log =
      [.read 12 (.ptr (.loc 0 0)) .uninit, .read 16 (.ptr (.loc 1 0)) .uninit]
      ++ (List.range 10).map (fun i => Event.read 24 (.ptr (.loc 2 i)) .uninit)
      ++ [.read 30 (.ptr (.loc 3 0)) .uninit]
      ++ (if wrap32 (lo 3 0) ≤ INT_MAX - 10 then []
          else [.overflow 30 (wrap32 (lo 3 0) + 10) (wrap32 (wrap32 (lo 3 0) + 10))])
      ++ [.read 6 (.ptr (.loc 4 0)) .uninit,
          .read 40 (.ptr (.loc 5 0)) .uninit] := by
  have hr := wrap32_range (lo 3 0)
  by_cases h : wrap32 (lo 3 0) ≤ INT_MAX - 10
  · have h1 : INT_MIN ≤ wrap32 (lo 3 0) + 10 := by omega
    have h2 : wrap32 (lo 3 0) + 10 ≤ INT_MAX := by omega
    simp [example5.main, example5.get_random_value, List.range, List.range.loop, h, h1, h2]
  · have h2 : ¬ wrap32 (lo 3 0) + 10 ≤ INT_MAX := by omega
    simp [example5.main, example5.get_random_value, List.range, List.range.loop, h, h2]

/-- What Example 1 of example6.c appends to the log, from any state. -/
theorem aliasing_log (m : Machine) :
    (example6.aliasing m).log = m.log ++
      [.alloc 29 m.next 1,
       .write 30 (.ptr (.loc m.next 0)) .ok,
       .release 33 (.ptr (.loc m.next 0)) .ok,
       .read 35 (.ptr (.loc m.next 0)) .freed,
       .write 36 (.ptr (.loc m.next 0)) .freed] := by
  simp [example6.aliasing]

/-- What Example 2 of example6.c appends to the log, from any state. -/
theorem functionParameter_log (m : Machine) :
    (example6.functionParameter m).log = m.log ++
      [.alloc 40 (m.next + 1) 2,
       .write 40 (.ptr (.loc m.next 0)) .ok,
       .read 41 (.ptr (.loc m.next 0)) .ok,
       .write 41 (.ptr (.loc (m.next + 1) 0)) .ok,
       .read 42 (.ptr (.loc m.next 0)) .ok,
       .read 14 (.ptr (.loc m.next 0)) .ok,
       .release 14 (.ptr (.loc (m.next + 1) 0)) .ok,
       .read 46 (.ptr (.loc (m.next + 1) 0)) .freed] := by
  simp [example6.functionParameter, example6.cleanup_node, example6.Node.data]

/-- What Example 3 of example6.c appends to the log, from any state. -/
theorem functionReturn_log (m : Machine) :
    (example6.functionReturn m).log = m.log ++
      [.alloc 20 m.next 2,
       .write 21 (.ptr (.loc m.next 0)) .ok,
       .release 22 (.ptr (.loc m.next 0)) .ok,
       .read 51 (.ptr (.loc m.next 0)) .freed] := by
  simp [example6.functionReturn, example6.get_freed_node, example6.Node.data]

/-- What Example 4 of example6.c appends to the log, from any state, when the
fuel allows four evaluations of the loop condition. -/
theorem loopScenario_log (m : Machine) (k : Nat) :
    (example6.loopScenario (k + 4) m).log = m.log ++
      [.alloc 60 m.next 2,
       .write 61 (.ptr (.loc m.next 0)) .ok,
       .write 62 (.ptr (.loc m.next 1)) .ok,
       .alloc 60 (m.next + 1) 2,
       .write 61 (.ptr (.loc (m.next + 1) 0)) .ok,
       .write 62 (.ptr (.loc (m.next + 1) 1)) .ok,
       .alloc 60 (m.next + 1 + 1) 2,
       .write 61 (.ptr (.loc (m.next + 1 + 1) 0)) .ok,
       .write 62 (.ptr (.loc (m.next + 1 + 1) 1)) .ok,
       .read 69 (.ptr (.loc (m.next + 1 + 1) 1)) .ok,
       .release 70 (.ptr (.loc (m.next + 1 + 1) 0)) .ok,
       .read 71 (.ptr (.loc (m.next + 1 + 1) 0)) .freed,
       .read 69 (.ptr (.loc (m.next + 1) 1)) .ok,
       .release 70 (.ptr (.loc (m.next + 1) 0)) .ok,
       .read 71 (.ptr (.loc (m.next + 1) 0)) .freed,
       .read 69 (.ptr (.loc m.next 1)) .ok,
       .release 70 (.ptr (.loc m.next 0)) .ok,
       .read 71 (.ptr (.loc m.next 0)) .freed] := by
  simp [example6.loopScenario, example6.createList, example6.freeList, example6.Node.data,
    example6.Node.next]

/-- What Example 5 of example6.c appends to the log, from any state. -/
theorem conditional_log (m : Machine) :
    (example6.conditional m).log = m.log ++
      [.alloc 77 m.next 1,
       .write 78 (.ptr (.loc m.next 0)) .ok,
       .release 82 (.ptr (.loc m.next 0)) .ok,
       .read 86 (.ptr (.loc m.next 0)) .freed] := by
  simp [example6.conditional]

end CMachine

namespace CMachine

/-- A computation that returns hands its value and final state to what follows. -/
theorem bind_of_value {α β : Type} {x : Exec α} {f : α → Exec β} {m : Machine} {a : α}
    (h : (x m).value = some a) : (x >>= f) m = f a (x m).machine := by
  cases hx : x m <;> simp_all

/-- The final state of a computation that returned. -/
theorem machine_ok {α : Type} (a : α) (m : Machine) : (Outcome.ok a m).machine = m := rfl

/-- Example 1 of example6.c returns and uses one block. -/
theorem aliasing_ok (m : Machine) :
    (example6.aliasing m).value = some () ∧ (example6.aliasing m).machine.next = m.next + 1 := by
  simp [example6.aliasing]

/-- Example 2 of example6.c returns and uses two blocks. -/
theorem functionParameter_ok (m : Machine) :
    (example6.functionParameter m).value = some ()
    ∧ (example6.functionParameter m).machine.next = m.next + 1 + 1 := by
  simp [example6.functionParameter, example6.cleanup_node, example6.Node.data]

/-- Example 3 of example6.c returns and uses one block. -/
theorem functionReturn_ok (m : Machine) :
    (example6.functionReturn m).value = some ()
    ∧ (example6.functionReturn m).machine.next = m.next + 1 := by
  simp [example6.functionReturn, example6.get_freed_node, example6.Node.data]

/-- Example 4 of example6.c returns after three iterations of its second loop
and uses three blocks. -/
theorem loopScenario_ok (m : Machine) (k : Nat) :
    (example6.loopScenario (k + 4) m).value = some 3
    ∧ (example6.loopScenario (k + 4) m).machine.next = m.next + 1 + 1 + 1 := by
  simp [example6.loopScenario, example6.createList, example6.freeList, example6.Node.data,
    example6.Node.next]

/-- Example 5 of example6.c returns and uses one block. -/
theorem conditional_ok (m : Machine) :
    (example6.conditional m).value = some ()
    ∧ (example6.conditional m).machine.next = m.next + 1 := by
  simp [example6.conditional]

/-- The program of example6.c as the sequence of its five examples. -/
theorem example6_main_eq (k : Nat) (m : Machine) :
    example6.main (k + 4) m =
      .ok (.int 0) (example6.conditional (example6.loopScenario (k + 4)
        (example6.functionReturn (example6.functionParameter
          (example6.aliasing m).machine).machine).machine).machine).machine := by
  unfold example6.main
  rw [bind_of_value (aliasing_ok _).1, bind_of_value (functionParameter_ok _).1,
    bind_of_value (functionReturn_ok _).1, bind_of_value (loopScenario_ok _ _).1,
    bind_of_value (conditional_ok _).1]
  rfl

/-- The log of a run of example6.c when the fuel allows four evaluations of
the condition of the loop at line 68. -/
theorem example6_log (k : Nat) (t : Bool) (j : Nat → Nat → Option Val) (c : Bool)
    (lo : Nat → Nat → Int) :
    (run (example6.main (k + 4)) t j c lo).log =
      [.alloc 29 0 1,
       .write 30 (.ptr (.loc 0 0)) .ok,
       .release 33 (.ptr (.loc 0 0)) .ok,
       .read 35 (.ptr (.loc 0 0)) .freed,
       .write 36 (.ptr (.loc 0 0)) .freed,
       .alloc 40 2 2,
       .write 40 (.ptr (.loc 1 0)) .ok,
       .read 41 (.ptr (.loc 1 0)) .ok,
       .write 41 (.ptr (.loc 2 0)) .ok,
       .read 42 (.ptr (.loc 1 0)) .ok,
       .read 14 (.ptr (.loc 1 0)) .ok,
       .release 14 (.ptr (.loc 2 0)) .ok,
       .read 46 (.ptr (.loc 2 0)) .freed,
       .alloc 20 3 2,
       .write 21 (.ptr (.loc 3 0)) .ok,
       .release 22 (.ptr (.loc 3 0)) .ok,
       .read 51 (.ptr (.loc 3 0)) .freed,
       .alloc 60 4 2,
       .write 61 (.ptr (.loc 4 0)) .ok,
       .write 62 (.ptr (.loc 4 1)) .ok,
       .alloc 60 5 2,
       .write 61 (.ptr (.loc 5 0)) .ok,
       .write 62 (.ptr (.loc 5 1)) .ok,
       .alloc 60 6 2,
       .write 61 (.ptr (.loc 6 0)) .ok,
       .write 62 (.ptr (.loc 6 1)) .ok,
       .read 69 (.ptr (.loc 6 1)) .ok,
       .release 70 (.ptr (.loc 6 0)) .ok,
       .read 71 (.ptr (.loc 6 0)) .freed,
       .read 69 (.ptr (.loc 5 1)) .ok,
       .release 70 (.ptr (.loc 5 0)) .ok,
       .read 71 (.ptr (.loc 5 0)) .freed,
       .read 69 (.ptr (.loc 4 1)) .ok,
       .release 70 (.ptr (.loc 4 0)) .ok,
       .read 71 (.ptr (.loc 4 0)) .freed,
       .alloc 77 7 1,
       .write 78 (.ptr (.loc 7 0)) .ok,
       .release 82 (.ptr (.loc 7 0)) .ok,
       .read 86 (.ptr (.loc 7 0)) .freed] := by
  rw [run, example6_main_eq, Outcome.log, machine_ok]
  have h1 := aliasing_log (Machine.init t j c lo)
  rw [Outcome.log] at h1
  have n1 := (aliasing_ok (Machine.init t j c lo)).2
  generalize (example6.aliasing (Machine.init t j c lo)).machine = m1 at h1 n1 ⊢
  have h2 := functionParameter_log m1
  rw [Outcome.log] at h2
  have n2 := (functionParameter_ok m1).2
  generalize (example6.functionParameter m1).machine = m2 at h2 n2 ⊢
  have h3 := functionReturn_log m2
  rw [Outcome.log] at h3
  have n3 := (functionReturn_ok m2).2
  generalize (example6.functionReturn m2).machine = m3 at h3 n3 ⊢
  have h4 := loopScenario_log m3 k
  rw [Outcome.log] at h4
  have n4 := (loopScenario_ok m3 k).2
  generalize (example6.loopScenario (k + 4) m3).machine = m4 at h4 n4 ⊢
  have h5 := conditional_log m4
  rw [Outcome.log] at h5
  generalize (example6.conditional m4).machine = m5 at h5 ⊢
  rw [h5, h4, h3, h2, h1, n4, n3, n2, n1]
  simp [Machine.init]

end CMachine

/-! ## The claims about the exemplar programs -/

namespace CMachine

/-- C2: on every run of example4.c (whatever a freed block holds, whether or
not NULL faults) the block allocated at line 7 is live when line 11 frees it
and is found freed by the read at line 14 and the write at line 15; the block
allocated at line 18 is live at the free of line 20 and found freed by the free
of line 21; the block allocated at line 24 is live at the free of line 28 and
found freed by the read at line 30 and the strcpy at line 31.  No allocation
happens between a free and the operations that follow it on the same block. -/
theorem example4_freed_block_operations (t : Bool) (j : Nat → Nat → Option Val) (c : Bool)
    (lo : Nat → Nat → Int) :
    (run example4.main t j c lo).value = some (.int 0)
    ∧ (run example4.main t j c lo).log =
      [.alloc 7 0 1,
       .write 8 (.ptr (.loc 0 0)) .ok,
       .read 9 (.ptr (.loc 0 0)) .ok,
       .release 11 (.ptr (.loc 0 0)) .ok,
       .read 14 (.ptr (.loc 0 0)) .freed,
       .write 15 (.ptr (.loc 0 0)) .freed,
       .alloc 18 1 1,
       .write 19 (.ptr (.loc 1 0)) .ok,
       .release 20 (.ptr (.loc 1 0)) .ok,
       .release 21 (.ptr (.loc 1 0)) .freed,
       .alloc 24 2 20,
       .write 25 (.ptr (.loc 2 0)) .ok,
       .read 26 (.ptr (.loc 2 0)) .ok,
       .release 28 (.ptr (.loc 2 0)) .ok,
       .read 30 (.ptr (.loc 2 0)) .freed,
       .write 31 (.ptr (.loc 2 0)) .freed] := by
  refine ⟨?_, example4_log t j c lo⟩
  simp [example4.main]

/-- C3: in example1.c the exact results of `a + b` (line 8) and `x * y`
(line 18) are 2^31 and 10^12, both greater than INT_MAX = 2^31 - 1; the run logs
exactly these two signed overflows, and reduced to the 32-bit signed range the
results are INT_MIN = -2147483648 and -727379968. -/
theorem example1_signed_overflows (t : Bool) (j : Nat → Nat → Option Val) (c : Bool)
    (lo : Nat → Nat → Int) :
    overflows (run example1.main t j c lo).log =
      [.overflow 8 (INT_MAX + 1) INT_MIN, .overflow 18 (1000000 * 1000000) (-727379968)]
    ∧ INT_MAX = 2 ^ 31 - 1
    ∧ INT_MAX < INT_MAX + 1
    ∧ INT_MAX < 1000000 * 1000000
    ∧ wrap32 (INT_MAX + 1) = INT_MIN
    ∧ INT_MIN = -2147483648
    ∧ wrap32 (1000000 * 1000000) = -727379968 := by
  rw [example1_log]
  simp [overflows, INT_MAX, INT_MIN, wrap32]

/-- C4: when a dereference of NULL faults, every run of example3.c faults at
line 12, where `*ptr` reads through NULL, and the read at line 12 is the only
memory operation executed; the three later dereferences of NULL (line 5 called
from line 15, line 19, line 27) are in the program - they are logged when a
dereference of NULL is skipped instead - but are never reached. -/
theorem example3_faults_at_first_dereference (j : Nat → Nat → Option Val) (c : Bool)
    (lo : Nat → Nat → Int) :
    (run example3.main true j c lo).faultLine = some 12
    ∧ (run example3.main true j c lo).value = none
    ∧ (run example3.main true j c lo).log = [.read 12 NULL .null]
    ∧ (run example3.main false j c lo).log =
        [.read 12 NULL .null, .read 5 NULL .null, .write 19 NULL .null, .write 27 NULL .null] := by
  refine ⟨?_, ?_, example3_trap_log j c lo, example3_log j c lo⟩
  · simp [example3.main, example3.process_data]
  · simp [example3.main, example3.process_data]

/-- C5: on every run of example5.c the reads of `x` (line 12), `ptr` (line 16),
`array[i]` for i = 0..9 (line 24), `a` (line 30), `value` (line 6, called from
line 35) and `flag` (line 40) each find a cell that was never written, and the
run contains no write at all: the log is these fifteen reads and nothing else
but the overflow entry of `a + b` on the runs where the word read for `a` is
above INT_MAX - 10.  Every call of `get_random_value`, from any state, reads the
never-written cell of its fresh local `value` and returns the leftover word; a
read is reported as `uninit` only when the cell holds `none`. -/
theorem example5_flagged_reads_unwritten (t : Bool) (j : Nat → Nat → Option Val) (c : Bool)
    (lo : Nat → Nat → Int) :
    (run example5.main t j c lo).log =
      [.read 12 (.ptr (.loc 0 0)) .uninit, .read 16 (.ptr (.loc 1 0)) .uninit]
      ++ (List.range 10).map (fun i => Event.read 24 (.ptr (.loc 2 i)) .uninit)
      ++ [.read 30 (.ptr (.loc 3 0)) .uninit]
      ++ (if wrap32 (lo 3 0) ≤ INT_MAX - 10 then []
          else [.overflow 30 (wrap32 (lo 3 0) + 10) (wrap32 (wrap32 (lo 3 0) + 10))])
      ++ [.read 6 (.ptr (.loc 4 0)) .uninit,
          .read 40 (.ptr (.loc 5 0)) .uninit]
    ∧ (∀ m : Machine,
        (example5.get_random_value m).log = m.log ++ [.read 6 (.ptr (.loc m.next 0)) .uninit]
        ∧ (example5.get_random_value m).value = some (.int (wrap32 (m.leftover m.next 0))))
    ∧ (∀ (m : Machine) (b o : Nat) (ty : CType),
        m.probe (.ptr (.loc b o)) 1 (some ty) = .uninit →
          ∃ blk, m.mem b = some blk ∧ blk.cells o = none) := by
  refine ⟨example5_log t j c lo, ?_, ?_⟩
  · intro m
    simp [example5.get_random_value]
  · intro m b o ty h
    simp only [Machine.probe] at h
    cases hb : m.mem b with
    | none => simp [hb] at h
    | some blk =>
      refine ⟨blk, rfl, ?_⟩
      cases hc : blk.cells o with
      | none => rfl
      | some v =>
        simp only [hb, hc] at h
        split_ifs at h

/-- C6: Example 1 of example6.c, from any state: `alias` is `original`, the
free at line 33 finds the block live and frees it, and the read at line 35 and
the write at line 36, both through `alias`, find that same block freed. -/
theorem example6_alias_use_after_free (m : Machine) :
    (example6.aliasing m).value = some ()
    ∧ (example6.aliasing m).log = m.log ++
      [.alloc 29 m.next 1,
       .write 30 (.ptr (.loc m.next 0)) .ok,
       .release 33 (.ptr (.loc m.next 0)) .ok,
       .read 35 (.ptr (.loc m.next 0)) .freed,
       .write 36 (.ptr (.loc m.next 0)) .freed] :=
  ⟨(aliasing_ok m).1, aliasing_log m⟩

/-- C8: Example 5 of example6.c, from any state and however an indeterminate
branch would resolve: `should_free` is the constant 1, so the free at line 82
runs, finds the block live and frees it, and the read at line 86 finds that
block freed. -/
theorem example6_conditional_use_after_free (m : Machine) :
    (example6.conditional m).value = some ()
    ∧ (example6.conditional m).log = m.log ++
      [.alloc 77 m.next 1,
       .write 78 (.ptr (.loc m.next 0)) .ok,
       .release 82 (.ptr (.loc m.next 0)) .ok,
       .read 86 (.ptr (.loc m.next 0)) .freed] :=
  ⟨(conditional_ok m).1, conditional_log m⟩

end CMachine

namespace CMachine

/-- C7 (as stated, refuted): three pointers to a live block for which the
statement fails.  In `selfHeldState` the pointer to the live node is held in the
`next` field of the node itself: `cleanup_node` frees the node, and the cell no
longer holds the pointer.  In `interiorHeldState` the pointer points to the
second cell of a live node, in `declaredTargetState` to a live declared object:
`free` is handed a pointer that is not the base of a heap block, and the block
is as live after the call as before. -/
theorem example6_cleanup_not_for_every_pointer :
    (selfHeldState.probe (.ptr (.loc 1 0)) 1 (some .int) = .ok
      ∧ selfHeldState.peek (.ptr (.loc 1 1)) = .ptr (.loc 1 0)
      ∧ (example6.cleanup_node (.ptr (.loc 1 1)) selfHeldState).log =
          [.read 14 (.ptr (.loc 1 1)) .ok, .release 14 (.ptr (.loc 1 0)) .ok]
      ∧ (example6.cleanup_node (.ptr (.loc 1 1)) selfHeldState).machine.peek (.ptr (.loc 1 1))
          ≠ .ptr (.loc 1 0))
    ∧ (interiorHeldState.probe (.ptr (.loc 1 1)) 1 (some .int) = .ok
      ∧ interiorHeldState.peek (.ptr (.loc 0 0)) = .ptr (.loc 1 1)
      ∧ (example6.cleanup_node (.ptr (.loc 0 0)) interiorHeldState).log =
          [.read 14 (.ptr (.loc 0 0)) .ok, .release 14 (.ptr (.loc 1 1)) .wild]
      ∧ (example6.cleanup_node (.ptr (.loc 0 0)) interiorHeldState).machine.probe
          (.ptr (.loc 1 1)) 1 (some .int) = .ok)
    ∧ (declaredTargetState.probe (.ptr (.loc 1 0)) 1 (some .int) = .ok
      ∧ declaredTargetState.peek (.ptr (.loc 0 0)) = .ptr (.loc 1 0)
      ∧ (example6.cleanup_node (.ptr (.loc 0 0)) declaredTargetState).log =
          [.read 14 (.ptr (.loc 0 0)) .ok, .release 14 (.ptr (.loc 1 0)) .notHeap]
      ∧ (example6.cleanup_node (.ptr (.loc 0 0)) declaredTargetState).machine.probe
          (.ptr (.loc 1 0)) 1 (some .int) = .ok) := by
  refine ⟨⟨?_, ?_, ?_, ?_⟩, ⟨?_, ?_, ?_, ?_⟩, ⟨?_, ?_, ?_, ?_⟩⟩ <;>
    simp [example6.cleanup_node, selfHeldState, interiorHeldState, declaredTargetState]

/-- C7 (amended): for every state.  For every live heap block `b` and every live
cell outside `b` that holds the base pointer of `b`: `cleanup_node` called with
the address of that cell returns, finds the block live and frees it, and leaves
the cell as it was - it still holds the pointer to `b`, not NULL - so a read of
`->data` through it finds a freed block.  `get_freed_node` returns the very
pointer it passed to `free` at line 22, whose block is freed.  In main the reads
at lines 46 and 51 find freed blocks. -/
theorem example6_callee_freed_pointer (m : Machine) :
    (∀ (b nb o : Nat) (blk var : Block),
      m.mem b = some blk → blk.heap = true → blk.freed = false →
      m.mem nb = some var → var.freed = false → o + 1 ≤ var.size →
      var.cells o = some (.ptr (.loc b 0)) → nb ≠ b →
        (example6.cleanup_node (.ptr (.loc nb o)) m).value = some ()
        ∧ (example6.cleanup_node (.ptr (.loc nb o)) m).log =
            m.log ++ [.read 14 (.ptr (.loc nb o)) .ok, .release 14 (.ptr (.loc b 0)) .ok]
        ∧ (example6.cleanup_node (.ptr (.loc nb o)) m).machine.mem b =
            some { blk with freed := true, cells := m.junk b }
        ∧ (example6.cleanup_node (.ptr (.loc nb o)) m).machine.mem nb = some var
        ∧ (example6.cleanup_node (.ptr (.loc nb o)) m).machine.peek (.ptr (.loc nb o)) =
            .ptr (.loc b 0)
        ∧ (example6.cleanup_node (.ptr (.loc nb o)) m).machine.probe
            ((Val.ptr (.loc b 0)).plus example6.Node.data) 1 (some .int) = .freed)
    ∧ (example6.get_freed_node m).value = some (.ptr (.loc m.next 0))
    ∧ (example6.get_freed_node m).log = m.log ++
        [.alloc 20 m.next 2,
         .write 21 (.ptr (.loc m.next 0)) .ok,
         .release 22 (.ptr (.loc m.next 0)) .ok]
    ∧ (example6.get_freed_node m).machine.probe
        ((Val.ptr (.loc m.next 0)).plus example6.Node.data) 1 (some .int) = .freed
    ∧ (example6.functionParameter m).log = m.log ++
        [.alloc 40 (m.next + 1) 2,
         .write 40 (.ptr (.loc m.next 0)) .ok,
         .read 41 (.ptr (.loc m.next 0)) .ok,
         .write 41 (.ptr (.loc (m.next + 1) 0)) .ok,
         .read 42 (.ptr (.loc m.next 0)) .ok,
         .read 14 (.ptr (.loc m.next 0)) .ok,
         .release 14 (.ptr (.loc (m.next + 1) 0)) .ok,
         .read 46 (.ptr (.loc (m.next + 1) 0)) .freed]
    ∧ (example6.functionReturn m).log = m.log ++
        [.alloc 20 m.next 2,
         .write 21 (.ptr (.loc m.next 0)) .ok,
         .release 22 (.ptr (.loc m.next 0)) .ok,
         .read 51 (.ptr (.loc m.next 0)) .freed] := by
  refine ⟨?_, ?_, ?_, ?_, functionParameter_log m, functionReturn_log m⟩
  · intro b nb o blk var hb hheap hlive hv hvlive hsize hcell hne
    have hsz : ¬ var.size < o + 1 := by omega
    refine ⟨?_, ?_, ?_, ?_, ?_, ?_⟩
    · simp [example6.cleanup_node, hb, hheap, hlive, hv, hvlive, hsz, hcell]
    · simp [example6.cleanup_node, hb, hheap, hlive, hv, hvlive, hsz, hcell]
    · simp [example6.cleanup_node, hb, hheap, hlive, hv, hvlive, hsz, hcell]
    · simp [example6.cleanup_node, hb, hheap, hlive, hv, hvlive, hsz, hcell, hne]
    · simp [example6.cleanup_node, hb, hheap, hlive, hv, hvlive, hsz, hcell, hne]
    · simp [example6.cleanup_node, example6.Node.data, hb, hheap, hlive, hv, hvlive, hsz, hcell]
  · simp [example6.get_freed_node, example6.Node.data]
  · simp [example6.get_freed_node, example6.Node.data]
  · simp [example6.get_freed_node, example6.Node.data]

/-- C7 (amended) at concrete states: in `heldPointerState` the variable in block
0 holds the pointer to the live heap block 1, and after `cleanup_node` it still
holds that pointer while a read through it finds a freed block; from the start
state `get_freed_node` returns the pointer to block 0, which it has freed. -/
theorem example6_callee_freed_pointer_witness :
    (example6.cleanup_node (.ptr (.loc 0 0)) heldPointerState).machine.peek (.ptr (.loc 0 0)) =
        .ptr (.loc 1 0)
    ∧ (example6.cleanup_node (.ptr (.loc 0 0)) heldPointerState).machine.probe
        ((Val.ptr (.loc 1 0)).plus example6.Node.data) 1 (some .int) = .freed
    ∧ (example6.get_freed_node (Machine.init false (fun _ _ => none) false (fun _ _ => 0))).value =
        some (.ptr (.loc 0 0)) :=
  have h := (example6_callee_freed_pointer heldPointerState).1 1 0 0
    { heap := true, size := 2, freed := false, cells := fun _ => none }
    { heap := false, size := 1, freed := false, cells := fun _ => some (.ptr (.loc 1 0)) }
    rfl rfl rfl rfl rfl (by decide) rfl (by decide)
  ⟨h.2.2.2.2.1, h.2.2.2.2.2,
    (example6_callee_freed_pointer (Machine.init false (fun _ _ => none) false (fun _ _ => 0))).2.1⟩

/-- C10: Example 4 of example6.c, from any state and whatever a freed block
holds.  The first loop builds a list of exactly three live nodes whose `data`
fields read 2, 1, 0 from the head.  With fuel for four evaluations of the
condition the second loop returns after exactly three iterations (three
evaluations are not enough); each iteration reads `current->next` at line 69
from a live node, frees that node at line 70 - each of the three nodes once,
each found live - and reads `current->data` of the node just freed at line 71. -/
theorem example6_loop_three_iterations (m : Machine) (fuel : Nat) (h : 4 ≤ fuel) :
    (example6.createList m).value = some (.ptr (.loc (m.next + 1 + 1) 0))
    ∧ listData (example6.createList m).machine 4 (.ptr (.loc (m.next + 1 + 1) 0)) =
        some [.int 2, .int 1, .int 0]
    ∧ (example6.loopScenario fuel m).value = some 3
    ∧ (example6.loopScenario 3 m).value = none
    ∧ (example6.loopScenario fuel m).log = m.log ++
      [.alloc 60 m.next 2,
       .write 61 (.ptr (.loc m.next 0)) .ok,
       .write 62 (.ptr (.loc m.next 1)) .ok,
       .alloc 60 (m.next + 1) 2,
       .write 61 (.ptr (.loc (m.next + 1) 0)) .ok,
       .write 62 (.ptr (.loc (m.next + 1) 1)) .ok,
       .alloc 60 (m.next + 1 + 1) 2,
       .write 61 (.ptr (.loc (m.next + 1 + 1) 0)) .ok,
       .write 62 (.ptr (.loc (m.next + 1 + 1) 1)) .ok,
       .read 69 (.ptr (.loc (m.next + 1 + 1) 1)) .ok,
       .release 70 (.ptr (.loc (m.next + 1 + 1) 0)) .ok,
       .read 71 (.ptr (.loc (m.next + 1 + 1) 0)) .freed,
       .read 69 (.ptr (.loc (m.next + 1) 1)) .ok,
       .release 70 (.ptr (.loc (m.next + 1) 0)) .ok,
       .read 71 (.ptr (.loc (m.next + 1) 0)) .freed,
       .read 69 (.ptr (.loc m.next 1)) .ok,
       .release 70 (.ptr (.loc m.next 0)) .ok,
       .read 71 (.ptr (.loc m.next 0)) .freed] := by
  obtain ⟨k, rfl⟩ : ∃ k, fuel = k + 4 := ⟨fuel - 4, by omega⟩
  refine ⟨?_, ?_, (loopScenario_ok m k).1, ?_, loopScenario_log m k⟩
  · simp [example6.createList, example6.Node.data, example6.Node.next]
  · simp [example6.createList, example6.Node.data, example6.Node.next, listData]
  · simp [example6.loopScenario, example6.createList, example6.freeList, example6.Node.data,
      example6.Node.next]

/-- C10 at the start state with fuel 4: the second loop returns after three
iterations. -/
theorem example6_loop_three_iterations_witness :
    4 ≤ 4 ∧ (example6.loopScenario 4 (Machine.init false (fun _ _ => none) false (fun _ _ => 0))).value = some 3 :=
  ⟨by decide,
    (example6_loop_three_iterations (Machine.init false (fun _ _ => none) false (fun _ _ => 0)) 4
      (by decide)).2.2.1⟩

/-- C1 (as stated, refuted): the defective operations of example1.c are two
signed overflows and two out-of-bounds accesses of `arr[15]`, and no class of the
corpus description contains all of them; and on the run of example5.c in which
the never-written `a` holds INT_MAX, `a + b` at line 30 is a signed overflow
next to the reads of uninitialized memory. -/
theorem example1_not_one_class :
    (¬ ∃ cls, oneClass cls
        (run example1.main false (fun _ _ => none) false (fun _ _ => 0)).log)
    ∧ (¬ ∃ cls, oneClass cls
        (run example5.main false (fun _ _ => none) false (fun _ _ => 2147483647)).log) := by
  constructor
  · rw [example1_log]
    rintro ⟨cls, -, h⟩
    have := h .outOfBounds (by simp [defects, Event.defect, Status.accessDefect])
    simp [Defect.cls] at this
  · rw [example5_log]
    rintro ⟨cls, -, h⟩
    have h1 := h .uninitRead (by simp [defects, Event.defect, Status.accessDefect])
    have h2 := h .signedOverflow
      (by simp [defects, Event.defect, Status.accessDefect, wrap32, INT_MAX, INT_MIN])
    simp [Defect.cls] at h1 h2
    rw [← h1] at h2
    exact absurd h2 (by decide)

/-- C1 (amended): on every run, the defective operations of example2.c are all
format-string/type mismatches, those of example3.c all null-pointer
dereferences, those of example4.c and of example6.c all use-after-free or
double-free; the defective operations of example1.c are two signed-integer
overflows followed by an out-of-bounds write and an out-of-bounds read; those of
example5.c are fifteen reads of uninitialized memory and, exactly on the runs
where the word read for `a` at line 30 is above INT_MAX - 10, the signed overflow
of `a + b` - on the other runs they are all reads of uninitialized memory. -/
theorem corpus_defect_classes (t : Bool) (j : Nat → Nat → Option Val) (c : Bool)
    (lo : Nat → Nat → Int) (fuel : Nat) (h : 4 ≤ fuel) :
    defects (run example1.main t j c lo).log =
        [.signedOverflow, .signedOverflow, .outOfBounds, .outOfBounds]
    ∧ oneClass .typeMismatch (run example2.main t j c lo).log
    ∧ oneClass .nullDeref (run example3.main t j c lo).log
    ∧ oneClass .useAfterFree (run example4.main t j c lo).log
    ∧ defects (run example5.main t j c lo).log =
        List.replicate 13 .uninitRead
        ++ (if wrap32 (lo 3 0) ≤ INT_MAX - 10 then [] else [.signedOverflow])
        ++ [.uninitRead, .uninitRead]
    ∧ (wrap32 (lo 3 0) ≤ INT_MAX - 10 → oneClass .uninitRead (run example5.main t j c lo).log)
    ∧ oneClass .useAfterFree (run (example6.main fuel) t j c lo).log := by
  obtain ⟨k, rfl⟩ : ∃ k, fuel = k + 4 := ⟨fuel - 4, by omega⟩
  refine ⟨?_, ?_, ?_, ?_, ?_, ?_, ?_⟩
  · rw [example1_log]
    simp [defects, Event.defect, Status.accessDefect]
  · rw [example2_log]
    simp [oneClass, defects, Event.defect, Status.accessDefect, Defect.cls]
  · cases t
    · rw [example3_log]
      simp [oneClass, defects, Event.defect, Status.accessDefect, Defect.cls]
    · rw [example3_trap_log]
      simp [oneClass, defects, Event.defect, Status.accessDefect, Defect.cls]
  · rw [example4_log]
    simp [oneClass, defects, Event.defect, Status.accessDefect, Status.freeDefect, Defect.cls]
  · rw [example5_log]
    by_cases hx : wrap32 (lo 3 0) ≤ INT_MAX - 10 <;>
      simp [hx, defects, Event.defect, Status.accessDefect, List.range, List.range.loop,
        List.replicate]
  · intro hx
    rw [example5_log]
    simp [hx, oneClass, defects, Event.defect, Status.accessDefect, Defect.cls, List.range,
      List.range.loop]
  · rw [example6_log]
    simp [oneClass, defects, Event.defect, Status.accessDefect, Status.freeDefect, Defect.cls]

/-- C1 (amended) with fuel 4 and a freed block holding nothing: the defective
operations of example4.c are all of the use-after-free/double-free class. -/
theorem corpus_defect_classes_witness :
    4 ≤ 4 ∧ oneClass .useAfterFree
      (run example4.main false (fun _ _ => none) false (fun _ _ => 0)).log :=
  ⟨by decide,
    (corpus_defect_classes false (fun _ _ => none) false (fun _ _ => 0) 4 (by decide)).2.2.2.1⟩

end CMachine

/-! ## Count reconciliation of the Matcher/Scorer -/

namespace Harness

/-- The chosen finding is at the returned position of the pool. -/
theorem choose_perm (tolerance : Nat) (g : GroundTruthInstance) :
    ∀ (pool : List NormalizedFinding) (i : Nat) (f : NormalizedFinding),
      choose tolerance g pool = some (i, f) → pool.Perm (f :: pool.eraseIdx i) := by
  intro pool
  induction pool with
  | nil => intro i f h; simp [choose] at h
  | cons a rest ih =>
    intro i f h
    unfold choose at h
    cases hc : choose tolerance g rest with
    | none =>
      rw [hc] at h
      by_cases hq : qualifies tolerance g a = true
      · simp [hq] at h
        obtain ⟨rfl, rfl⟩ := h
        simp
      · simp [hq] at h
    | some p =>
      obtain ⟨k, e⟩ := p
      rw [hc] at h
      by_cases hq : (qualifies tolerance g a && !preferred g e a) = true
      · simp only [hq, if_true, Option.some.injEq, Prod.mk.injEq] at h
        obtain ⟨rfl, rfl⟩ := h
        simp
      · simp only [hq, Bool.false_eq_true, if_false, Option.some.injEq, Prod.mk.injEq] at h
        obtain ⟨hi, hf⟩ := h
        subst hi
        subst hf
        have hrest := ih k e hc
        simp only [List.eraseIdx_cons_succ]
        exact (List.Perm.cons a hrest).trans (List.Perm.swap e a _)

/-- The outcomes of one exemplar account for its instances exactly, in order. -/
theorem instancesOf_matchExemplar (tolerance : Nat) :
    ∀ (gs : List GroundTruthInstance) (pool : List NormalizedFinding),
      instancesOf (matchExemplar tolerance gs pool) = gs := by
  intro gs
  induction gs with
  | nil =>
    intro pool
    induction pool with
    | nil => rfl
    | cons a rest ih => simpa [matchExemplar, instancesOf] using ih
  | cons g gs ih =>
    intro pool
    unfold matchExemplar
    cases hc : choose tolerance g pool with
    | none => simp [instancesOf, ih]
    | some p => simp [instancesOf, ih]

/-- The outcomes of one exemplar account for its findings, each exactly once. -/
theorem findingsOf_matchExemplar (tolerance : Nat) :
    ∀ (gs : List GroundTruthInstance) (pool : List NormalizedFinding),
      (findingsOf (matchExemplar tolerance gs pool)).Perm pool := by
  intro gs
  induction gs with
  | nil =>
    intro pool
    induction pool with
    | nil => exact List.Perm.refl _
    | cons a rest ih => simpa [matchExemplar, findingsOf] using ih
  | cons g gs ih =>
    intro pool
    unfold matchExemplar
    cases hc : choose tolerance g pool with
    | none => simpa [findingsOf] using ih pool
    | some p =>
      obtain ⟨i, f⟩ := p
      simp only [findingsOf]
      exact ((ih (pool.eraseIdx i)).cons f).trans (choose_perm tolerance g pool i f hc).symm

/-- Every outcome that carries an instance is counted once as TP or FN. -/
theorem TP_add_FN (os : List MatchOutcome) : TP os + FN os = (instancesOf os).length := by
  induction os with
  | nil => rfl
  | cons o os ih =>
    cases o <;> simp [TP, FN, instancesOf, List.countP_cons] at ih ⊢ <;> omega

/-- Every outcome that carries a finding is counted once as TP or FP. -/
theorem TP_add_FP (os : List MatchOutcome) : TP os + FP os = (findingsOf os).length := by
  induction os with
  | nil => rfl
  | cons o os ih =>
    cases o <;> simp [TP, FP, findingsOf, List.countP_cons] at ih ⊢ <;> omega

/-- The instances a run accounts for are counted slice by slice. -/
theorem instancesOf_append (xs ys : List MatchOutcome) :
    instancesOf (xs ++ ys) = instancesOf xs ++ instancesOf ys := by
  induction xs with
  | nil => rfl
  | cons o os ih => cases o <;> simp [instancesOf, ih]

/-- The findings a run accounts for are counted slice by slice. -/
theorem findingsOf_append (xs ys : List MatchOutcome) :
    findingsOf (xs ++ ys) = findingsOf xs ++ findingsOf ys := by
  induction xs with
  | nil => rfl
  | cons o os ih => cases o <;> simp [findingsOf, ih]

/-- A run accounts for as many instances as its slices hold. -/
theorem instancesOf_matchRun (tolerance : Nat)
    (slices : List (List GroundTruthInstance × List NormalizedFinding)) :
    (instancesOf (matchRun tolerance slices)).length = totalInstances slices := by
  induction slices with
  | nil => rfl
  | cons s rest ih =>
    simp only [matchRun, List.flatMap_cons, instancesOf_append, List.length_append,
      instancesOf_matchExemplar, totalInstances, List.map_cons, List.sum_cons] at ih ⊢
    rw [ih]

/-- A run accounts for as many findings as its slices hold. -/
theorem findingsOf_matchRun (tolerance : Nat)
    (slices : List (List GroundTruthInstance × List NormalizedFinding)) :
    (findingsOf (matchRun tolerance slices)).length = totalFindings slices := by
  induction slices with
  | nil => rfl
  | cons s rest ih =>
    simp only [matchRun, List.flatMap_cons, findingsOf_append, List.length_append,
      totalFindings, List.map_cons, List.sum_cons] at ih ⊢
    rw [ih, (findingsOf_matchExemplar tolerance s.1 s.2).length_eq]

/-- The chosen finding qualifies for the instance. -/
theorem choose_qualifies (tolerance : Nat) (g : GroundTruthInstance) :
    ∀ (pool : List NormalizedFinding) (i : Nat) (f : NormalizedFinding),
      choose tolerance g pool = some (i, f) → qualifies tolerance g f = true := by
  intro pool
  induction pool with
  | nil => intro i f h; simp [choose] at h
  | cons a rest ih =>
    intro i f h
    unfold choose at h
    cases hc : choose tolerance g rest with
    | none =>
      rw [hc] at h
      by_cases hq : qualifies tolerance g a = true
      · simp [hq] at h
        obtain ⟨-, rfl⟩ := h
        exact hq
      · simp [hq] at h
    | some p =>
      obtain ⟨k, e⟩ := p
      rw [hc] at h
      by_cases hq : (qualifies tolerance g a && !preferred g e a) = true
      · simp only [hq, if_true, Option.some.injEq, Prod.mk.injEq] at h
        obtain ⟨-, rfl⟩ := h
        simp only [Bool.and_eq_true] at hq
        exact hq.1
      · simp only [hq, Bool.false_eq_true, if_false, Option.some.injEq, Prod.mk.injEq] at h
        obtain ⟨-, hf⟩ := h
        subst hf
        exact ih k e hc

/-- A finding that qualifies for an instance has the category of the instance;
in particular its category is not `Unknown`. -/
theorem qualifies_category (tolerance : Nat) (g : GroundTruthInstance) (f : NormalizedFinding)
    (h : qualifies tolerance g f = true) : f.category = .known g.category := by
  simp only [qualifies, Bool.and_eq_true, decide_eq_true_eq] at h
  exact h.1

/-- Every outcome of one exemplar is consistent with the matching rule. -/
theorem sound_matchExemplar (tolerance : Nat) :
    ∀ (gs : List GroundTruthInstance) (pool : List NormalizedFinding),
      ∀ o ∈ matchExemplar tolerance gs pool, sound tolerance o = true := by
  intro gs
  induction gs with
  | nil =>
    intro pool o ho
    simp only [matchExemplar, List.mem_map] at ho
    obtain ⟨f, -, rfl⟩ := ho
    rfl
  | cons g gs ih =>
    intro pool o ho
    unfold matchExemplar at ho
    cases hc : choose tolerance g pool with
    | none =>
      rw [hc] at ho
      simp only [List.mem_cons] at ho
      rcases ho with rfl | ho
      · rfl
      · exact ih pool o ho
    | some p =>
      obtain ⟨i, f⟩ := p
      rw [hc] at ho
      simp only [List.mem_cons] at ho
      rcases ho with rfl | ho
      · exact choose_qualifies tolerance g pool i f hc
      · exact ih _ o ho

/-- Every outcome of a run is consistent with the matching rule. -/
theorem sound_matchRun (tolerance : Nat)
    (slices : List (List GroundTruthInstance × List NormalizedFinding)) :
    ∀ o ∈ matchRun tolerance slices, sound tolerance o = true := by
  intro o ho
  simp only [matchRun, List.mem_flatMap] at ho
  obtain ⟨s, -, hs⟩ := ho
  exact sound_matchExemplar tolerance s.1 s.2 o hs

/-- The FalsePositive outcomes are those with an `Unknown` finding and those
with a finding of a defect category. -/
theorem FP_split (os : List MatchOutcome) : FP os = FPunknown os + FPknown os := by
  induction os with
  | nil => rfl
  | cons o os ih =>
    cases o with
    | TruePositive g f => simpa [FP, FPunknown, FPknown, List.countP_cons] using ih
    | FalseNegative g => simpa [FP, FPunknown, FPknown, List.countP_cons] using ih
    | FalsePositive f =>
      by_cases hf : f.category = .Unknown <;>
        simp [FP, FPunknown, FPknown, List.countP_cons, hf] at ih ⊢ <;> omega

/-- Among outcomes consistent with the matching rule, the `Unknown` findings are
exactly those of the FalsePositive outcomes with an `Unknown` finding. -/
theorem unknown_findingsOf (tolerance : Nat) (os : List MatchOutcome)
    (h : ∀ o ∈ os, sound tolerance o = true) :
    (findingsOf os).countP (fun f => decide (f.category = .Unknown)) = FPunknown os := by
  induction os with
  | nil => rfl
  | cons o os ih =>
    have ih' := ih (fun o ho => h o (List.mem_cons_of_mem _ ho))
    cases o with
    | TruePositive g f =>
      have hq : qualifies tolerance g f = true := h _ (List.mem_cons_self _ _)
      have hk := qualifies_category tolerance g f hq
      simpa [findingsOf, FPunknown, List.countP_cons, hk] using ih'
    | FalseNegative g => simpa [findingsOf, FPunknown, List.countP_cons] using ih'
    | FalsePositive f =>
      by_cases hf : f.category = .Unknown <;>
        simpa [findingsOf, FPunknown, List.countP_cons, hf] using ih'

/-- The findings a run accounts for hold as many `Unknown` ones as its slices. -/
theorem unknown_matchRun (tolerance : Nat)
    (slices : List (List GroundTruthInstance × List NormalizedFinding)) :
    (findingsOf (matchRun tolerance slices)).countP (fun f => decide (f.category = .Unknown))
      = unknownFindings slices := by
  induction slices with
  | nil => rfl
  | cons s rest ih =>
    simp only [matchRun, List.flatMap_cons, findingsOf_append, List.countP_append,
      unknownFindings, List.map_cons, List.sum_cons] at ih ⊢
    rw [ih, (findingsOf_matchExemplar tolerance s.1 s.2).countP_eq]

/-- A run has at least as many findings as `Unknown` findings. -/
theorem unknownFindings_le (slices : List (List GroundTruthInstance × List NormalizedFinding)) :
    unknownFindings slices ≤ totalFindings slices := by
  induction slices with
  | nil => exact Nat.le_refl _
  | cons s rest ih =>
    simp only [unknownFindings, totalFindings, List.map_cons, List.sum_cons] at ih ⊢
    exact Nat.add_le_add (List.countP_le_length _) ih

/-- The model on Scenario A of the specification: instance at line 42 with
alias line 50; the first finding at line 50 is consumed, the second is a
FalsePositive. -/
theorem model_on_case_A :
    TP (matchRun 0 [([⟨.UseAfterFree, 42, [50], 1⟩],
        [⟨.known .UseAfterFree, [50], 1⟩, ⟨.known .UseAfterFree, [50], 1⟩])]) = 1
    ∧ FN (matchRun 0 [([⟨.UseAfterFree, 42, [50], 1⟩],
        [⟨.known .UseAfterFree, [50], 1⟩, ⟨.known .UseAfterFree, [50], 1⟩])]) = 0
    ∧ FP (matchRun 0 [([⟨.UseAfterFree, 42, [50], 1⟩],
        [⟨.known .UseAfterFree, [50], 1⟩, ⟨.known .UseAfterFree, [50], 1⟩])]) = 1 := by
  decide

/-- The model on Scenario B of the specification: one instance, no finding,
one FalseNegative. -/
theorem model_on_case_B :
    TP (matchRun 0 [([⟨.NullDereference, 10, [], 1⟩], [])]) = 0
    ∧ FN (matchRun 0 [([⟨.NullDereference, 10, [], 1⟩], [])]) = 1
    ∧ FP (matchRun 0 [([⟨.NullDereference, 10, [], 1⟩], [])]) = 0 := by
  decide

/-- The model on Scenario C of the specification: an `Unknown` finding never
qualifies for an instance, and on `unknownRun` it is counted as the one
FalsePositive. -/
theorem model_on_case_C :
    (∀ (tolerance : Nat) (g : GroundTruthInstance) (f : NormalizedFinding),
      f.category = .Unknown → qualifies tolerance g f = false)
    ∧ TP (matchRun 0 unknownRun) = 0
    ∧ FN (matchRun 0 unknownRun) = 1
    ∧ FP (matchRun 0 unknownRun) = 1 := by
  refine ⟨?_, by decide, by decide, by decide⟩
  intro tolerance g f h
  simp [qualifies, h]

/-- The model on Scenario D of the specification: instance at line 100 and
finding at line 101 match with tolerance 2 and not with tolerance 0. -/
theorem model_on_case_D :
    TP (matchRun 2 [([⟨.UseAfterFree, 100, [], 1⟩], [⟨.known .UseAfterFree, [101], 1⟩])]) = 1
    ∧ TP (matchRun 0 [([⟨.UseAfterFree, 100, [], 1⟩], [⟨.known .UseAfterFree, [101], 1⟩])]) = 0
    ∧ FN (matchRun 0 [([⟨.UseAfterFree, 100, [], 1⟩], [⟨.known .UseAfterFree, [101], 1⟩])]) = 1
    ∧ FP (matchRun 0 [([⟨.UseAfterFree, 100, [], 1⟩], [⟨.known .UseAfterFree, [101], 1⟩])]) = 1 := by
  decide

/-- C9 (as stated, refuted): with one UseAfterFree instance and one `Unknown`
finding the `Unknown` finding matches nothing and is the one FalsePositive
(TP = 0, FN = 1, FP = 1), so TP + FP is 1 while the number of findings minus the
`Unknown` ones is 0. -/
theorem reconciliation_minus_unknown_fails :
    TP (matchRun 0 unknownRun) = 0
    ∧ FN (matchRun 0 unknownRun) = 1
    ∧ FP (matchRun 0 unknownRun) = 1
    ∧ totalFindings unknownRun = 1
    ∧ unknownFindings unknownRun = 1
    ∧ ¬ (TP (matchRun 0 unknownRun) + FP (matchRun 0 unknownRun)
        = totalFindings unknownRun - unknownFindings unknownRun) := by
  decide

/-- C9 (amended): for every run, TP + FN is the number of ground-truth
instances; a TruePositive always pairs an instance with a finding of its own
category, so no `Unknown` finding is ever matched and each of them is counted as
a FalsePositive; TP + FP is the number of findings handed to the matcher, the
`Unknown` ones included, and TP plus the FalsePositives of a defect category is
the number of findings minus the `Unknown` ones; per exemplar the outcomes carry
the instances exactly once each and the findings exactly once each. -/
theorem reconciliation (tolerance : Nat)
    (slices : List (List GroundTruthInstance × List NormalizedFinding)) :
    TP (matchRun tolerance slices) + FN (matchRun tolerance slices) = totalInstances slices
    ∧ TP (matchRun tolerance slices) + FP (matchRun tolerance slices) = totalFindings slices
    ∧ (∀ g f, MatchOutcome.TruePositive g f ∈ matchRun tolerance slices →
        f.category = .known g.category)
    ∧ FPunknown (matchRun tolerance slices) = unknownFindings slices
    ∧ TP (matchRun tolerance slices) + FPknown (matchRun tolerance slices)
        = totalFindings slices - unknownFindings slices
    ∧ ∀ s ∈ slices,
        instancesOf (matchExemplar tolerance s.1 s.2) = s.1
        ∧ (findingsOf (matchExemplar tolerance s.1 s.2)).Perm s.2 := by
  have hsound := sound_matchRun tolerance slices
  have hFP : TP (matchRun tolerance slices) + FP (matchRun tolerance slices)
      = totalFindings slices := by
    rw [TP_add_FP, findingsOf_matchRun]
  have hU : FPunknown (matchRun tolerance slices) = unknownFindings slices := by
    rw [← unknown_findingsOf tolerance _ hsound, unknown_matchRun]
  refine ⟨?_, hFP, ?_, hU, ?_, ?_⟩
  · rw [TP_add_FN, instancesOf_matchRun]
  · intro g f hmem
    exact qualifies_category tolerance g f (hsound _ hmem)
  · have hsplit := FP_split (matchRun tolerance slices)
    have hle := unknownFindings_le slices
    omega
  · intro s _
    exact ⟨instancesOf_matchExemplar tolerance s.1 s.2, findingsOf_matchExemplar tolerance s.1 s.2⟩

end Harness
